import Mathlib

/-!
Shallow embedding of the rotary-encoder polling scripts of the `ether`
repository. Each script is a linear polling loop over four
encoder+button channels; the embedding models one channel iteration of
each loop variant as a pure step function from channel state and the
bus-read results of the cycle to the updated state and the list of emitted
line-protocol events, and whole cycles / multi-cycle runs as folds of
those steps.
-/

namespace Ether

/-- Kind of a bus-read fault. The scripts distinguish errors whose text
contains "No such device" (the device-absent class) from every other
exception (transient). -/
inductive Fault where
  | deviceAbsent
  | transient
deriving DecidableEq

/-- Result of one bus read: a value, or a raised fault. -/
inductive RRead (α : Type) where
  | ok (v : α)
  | fault (f : Fault)
deriving DecidableEq

/-- One emitted line of the text protocol: `E<idx>:<delta>`,
`B<idx>:PRESS` or `B<idx>:RELEASE`. -/
inductive Event where
  | enc (idx : Nat) (delta : Int)
  | press (idx : Nat)
  | release (idx : Nat)
deriving DecidableEq

/-- Per-channel state of the variants with optional handles
(`qtpy_working.py`, `qtpy_simple.py`, `qtpy_fixed_pins.py`,
`qtpy_pullups.py`): `enc` / `btn` record whether `encoders[i]` /
`buttons[i]` is non-None, `lastPos` is `last_positions[i]` and
`lastBtn` is `last_buttons[i]`. -/
structure Chan where
  enc : Bool
  btn : Bool
  lastPos : Int
  lastBtn : Bool
deriving DecidableEq

/-- Per-channel state of the variants without optional handles
(`qtpy_quad_rotary_script.py`, `qtpy_fixed_from_sample.py`,
`qtpy_grid_sequencer.py`, `qtpy_normalized_steps.py`). -/
structure PChan where
  lastPos : Int
  lastBtn : Bool
deriving DecidableEq

/-- The two bus reads a channel may perform in one cycle: the encoder
`position` register and the button `value` register. -/
structure ChanRe where
  encRead : RRead Int
  btnRead : RRead Bool
deriving DecidableEq

/-- Encoder half of the loop body shared by the raw-delta variants
(`qtpy_working.py` lines 69-73 and the identical blocks elsewhere):
`current_pos = encoders[i].position; if current_pos != last_positions[i]:
delta = current_pos - last_positions[i]; print(f"E{i+1}:{delta}");
last_positions[i] = current_pos`. Returns the new `last_positions[i]`
and the emitted events. -/
def encPart (i : Nat) (lastPos pos : Int) : Int × List Event :=
  if pos ≠ lastPos then (pos, [Event.enc i (pos - lastPos)])
  else (lastPos, [])

/-- Button half of the loop body shared by all variants
(`qtpy_working.py` lines 77-83): on a level change print PRESS when the
new level is false (pull-up inverted) or RELEASE when true, then update
`last_buttons[i]`. -/
def btnPart (i : Nat) (lastBtn cur : Bool) : Bool × List Event :=
  if cur ≠ lastBtn then
    (cur, [if cur = false then Event.press i else Event.release i])
  else (lastBtn, [])

/-- One per-channel iteration of the `qtpy_working.py` polling loop
(lines 62-90), also the loop of `qtpy_pullups.py` (lines 131-150): a
channel whose encoder handle is None is skipped entirely (`continue`),
the button read is nested inside the same try as the encoder read, and
the except handler disables both `encoders[i]` and `buttons[i]` when
the error text contains "No such device", otherwise only logs. State
mutations made before a fault persist. -/
def workingChanStep (i : Nat) (c : Chan) (re : ChanRe) : Chan × List Event :=
  if c.enc = false then (c, [])
  else
    match re.encRead with
    | RRead.fault f =>
        if f = Fault.deviceAbsent then ({ c with enc := false, btn := false }, [])
        else (c, [])
    | RRead.ok pos =>
        let pe := encPart i c.lastPos pos
        let c1 : Chan := { c with lastPos := pe.1 }
        if c1.btn then
          match re.btnRead with
          | RRead.fault f =>
              if f = Fault.deviceAbsent then ({ c1 with enc := false, btn := false }, pe.2)
              else (c1, pe.2)
          | RRead.ok b =>
              let pb := btnPart i c1.lastBtn b
              ({ c1 with lastBtn := pb.1 }, pe.2 ++ pb.2)
        else (c1, pe.2)

/-- Button half of the `qtpy_simple.py` loop body, guarded by its own
`if buttons[i] is not None` and reached even when the encoder handle is
absent; a device-absent fault in the button read disables both handles
(the shared except handler sets `encoders[i] = None; buttons[i] = None`).
`evs` are the events already printed earlier in the try body. -/
def simpleBtnHalf (i : Nat) (c : Chan) (re : ChanRe) (evs : List Event) :
    Chan × List Event :=
  if c.btn then
    match re.btnRead with
    | RRead.fault f =>
        if f = Fault.deviceAbsent then ({ c with enc := false, btn := false }, evs)
        else (c, evs)
    | RRead.ok b =>
        let pb := btnPart i c.lastBtn b
        ({ c with lastBtn := pb.1 }, evs ++ pb.2)
  else (c, evs)

/-- One per-channel iteration of the `qtpy_simple.py` polling loop
(lines 65-92): no skip on an absent encoder handle — the encoder and
button halves are independently guarded by `is not None` checks inside
one try, and the except handler disables both handles on a
device-absent error, otherwise only logs. A fault raised in the encoder
read jumps to the handler, skipping the button half of that cycle. -/
def simpleChanStep (i : Nat) (c : Chan) (re : ChanRe) : Chan × List Event :=
  if c.enc then
    match re.encRead with
    | RRead.fault f =>
        if f = Fault.deviceAbsent then ({ c with enc := false, btn := false }, [])
        else (c, [])
    | RRead.ok pos =>
        let pe := encPart i c.lastPos pos
        simpleBtnHalf i { c with lastPos := pe.1 } re pe.2
  else simpleBtnHalf i c re []

/-- One per-channel iteration of the `qtpy_fixed_pins.py` polling loop
(lines 107-129): same body as `qtpy_working.py`, but the except handler
disables both `encoders[i]` and `buttons[i]` on ANY exception, with no
device-absent check. -/
def fixedPinsChanStep (i : Nat) (c : Chan) (re : ChanRe) : Chan × List Event :=
  if c.enc = false then (c, [])
  else
    match re.encRead with
    | RRead.fault _ => ({ c with enc := false, btn := false }, [])
    | RRead.ok pos =>
        let pe := encPart i c.lastPos pos
        let c1 : Chan := { c with lastPos := pe.1 }
        if c1.btn then
          match re.btnRead with
          | RRead.fault _ => ({ c1 with enc := false, btn := false }, pe.2)
          | RRead.ok b =>
              let pb := btnPart i c1.lastBtn b
              ({ c1 with lastBtn := pb.1 }, pe.2 ++ pb.2)
        else (c1, pe.2)

/-- One per-channel iteration of the `qtpy_quad_rotary_script.py`
polling loop (lines 39-58): no try/except at all, so a fault raised by
either read escapes (returned as `some f`); events printed and state
mutations made before the fault persist. -/
def quadChanStep (i : Nat) (c : PChan) (re : ChanRe) :
    PChan × List Event × Option Fault :=
  match re.encRead with
  | RRead.fault f => (c, [], some f)
  | RRead.ok pos =>
      let pe := encPart i c.lastPos pos
      let c1 : PChan := { c with lastPos := pe.1 }
      match re.btnRead with
      | RRead.fault f => (c1, pe.2, some f)
      | RRead.ok b =>
          let pb := btnPart i c1.lastBtn b
          ({ c1 with lastBtn := pb.1 }, pe.2 ++ pb.2, none)

/-- One per-channel iteration of the `qtpy_fixed_from_sample.py`
polling loop (lines 49-70): handles are never optional, the except
handler only logs (never disables), so any fault leaves the channel
state as it was at the point of the fault. -/
def sampleChanStep (i : Nat) (c : PChan) (re : ChanRe) : PChan × List Event :=
  match re.encRead with
  | RRead.fault _ => (c, [])
  | RRead.ok pos =>
      let pe := encPart i c.lastPos pos
      let c1 : PChan := { c with lastPos := pe.1 }
      match re.btnRead with
      | RRead.fault _ => (c1, pe.2)
      | RRead.ok b =>
          let pb := btnPart i c1.lastBtn b
          ({ c1 with lastBtn := pb.1 }, pe.2 ++ pb.2)

/-- One full cycle of the `qtpy_working.py` loop over the channel list
(`for i in range(4)` with events printed in index order). `i` is the
1-based index of the first channel. Every per-channel fault is caught
inside the try/except of that channel, so the cycle always continues to
the next channel. -/
def workingCycle (i : Nat) : List Chan → List ChanRe → List Chan × List Event
  | c :: cs, re :: res =>
      let st := workingChanStep i c re
      let rest := workingCycle (i + 1) cs res
      (st.1 :: rest.1, st.2 ++ rest.2)
  | cs, _ => (cs, [])

/-- One full cycle of the `qtpy_fixed_from_sample.py` loop over the
channel list. -/
def sampleCycle (i : Nat) : List PChan → List ChanRe → List PChan × List Event
  | c :: cs, re :: res =>
      let st := sampleChanStep i c re
      let rest := sampleCycle (i + 1) cs res
      (st.1 :: rest.1, st.2 ++ rest.2)
  | cs, _ => (cs, [])

/-- One full cycle of the `qtpy_quad_rotary_script.py` loop: an escaped
fault (`some f`) aborts the `for` loop, leaving the remaining channels
unpolled and the whole loop terminated. -/
def quadCycle (i : Nat) : List PChan → List ChanRe → List PChan × List Event × Option Fault
  | c :: cs, re :: res =>
      let st := quadChanStep i c re
      match st.2.2 with
      | some f => (st.1 :: cs, st.2.1, some f)
      | none =>
          let rest := quadCycle (i + 1) cs res
          (st.1 :: rest.1, st.2.1 ++ rest.2.1, rest.2.2)
  | cs, _ => (cs, [], none)

/-- Multi-cycle run of one channel under a given per-channel step
function: each element of the list is the pair of bus-read results of
one polling cycle. -/
def runChan (step : Nat → Chan → ChanRe → Chan × List Event) (i : Nat)
    (c : Chan) : List ChanRe → Chan × List Event
  | [] => (c, [])
  | re :: res =>
      let st := step i c re
      let rest := runChan step i st.1 res
      (rest.1, st.2 ++ rest.2)

/-- Encoder step of `qtpy_quad_rotary_script.py` (lines 43-47), the raw
delta policy in isolation: the printed payload is the bare delta. -/
def rawEncStep (last pos : Int) : Int × List Int :=
  if pos ≠ last then (pos, [pos - last]) else (last, [])

/-- Fault-free multi-cycle run of the raw delta policy over a sequence
of raw position reads. -/
def rawEncRun (last : Int) : List Int → Int × List Int
  | [] => (last, [])
  | p :: ps =>
      let st := rawEncStep last p
      let rest := rawEncRun st.1 ps
      (rest.1, st.2 ++ rest.2)

/-- Encoder step of `qtpy_normalized_steps.py` (lines 33-47), the
sign-normalized policy: on a change, print `+1` when
`raw_delta = current_pos - last_positions[i]` is positive, else `-1`,
then set `last_positions[i] = current_pos`. -/
def normEncStep (i : Nat) (last pos : Int) : Int × List Event :=
  if pos ≠ last then
    (pos, [Event.enc i (if pos - last > 0 then 1 else -1)])
  else (last, [])

/-- Fault-free multi-cycle run of the sign-normalized policy. -/
def normEncRun (i : Nat) (last : Int) : List Int → Int × List Event
  | [] => (last, [])
  | p :: ps =>
      let st := normEncStep i last p
      let rest := normEncRun i st.1 ps
      (rest.1, st.2 ++ rest.2)

/-- The divisor constant of `qtpy_grid_sequencer.py` (line 29). -/
def ENCODER_DIVISOR : Int := 4

/-- Encoder step of `qtpy_grid_sequencer.py` (lines 37-55) with the
divisor as a parameter: `step_pos = raw_pos // d` (Python floor
division, `Int.fdiv`); on a change of `step_pos`, clamp
`delta = step_pos - last_positions[i]` to 1 when greater than 1 and to
-1 when less than -1, print it, and set `last_positions[i] = step_pos`. -/
def gridEncStepD (d : Int) (i : Nat) (last raw : Int) : Int × List Event :=
  let stepPos := Int.fdiv raw d
  if stepPos ≠ last then
    let delta := stepPos - last
    let clamped := if delta > 1 then 1 else if delta < -1 then -1 else delta
    (stepPos, [Event.enc i clamped])
  else (last, [])

/-- Encoder step of `qtpy_grid_sequencer.py` at its compiled-in divisor. -/
def gridEncStep : Nat → Int → Int → Int × List Event :=
  gridEncStepD ENCODER_DIVISOR

/-- Fault-free multi-cycle run of the divisor-scaled policy. -/
def gridEncRun (i : Nat) (last : Int) : List Int → Int × List Event
  | [] => (last, [])
  | p :: ps =>
      let st := gridEncStep i last p
      let rest := gridEncRun i st.1 ps
      (rest.1, st.2 ++ rest.2)

/-- Fault-free multi-cycle run of the button step over a sequence of
level reads. -/
def btnRun (i : Nat) (last : Bool) : List Bool → Bool × List Event
  | [] => (last, [])
  | b :: bs =>
      let st := btnPart i last b
      let rest := btnRun i st.1 bs
      (rest.1, st.2 ++ rest.2)

/-- Address probe loop of `qtpy_fixed_pins.py` (lines 19-29) and
`qtpy_pullups.py` (lines 73-81): `for addr in addresses: try: open;
break; except: continue`. Returns the sequence of attempted addresses
in order and the selected address, if any. -/
def probeAddrs (openS : Nat → RRead Unit) : List Nat → List Nat × Option Nat
  | [] => ([], none)
  | a :: rest =>
      match openS a with
      | RRead.ok _ => ([a], some a)
      | RRead.fault _ =>
          let r := probeAddrs openS rest
          (a :: r.1, r.2)

/-- Candidate address list of `qtpy_fixed_pins.py` (line 19). -/
def addressesFixedPins : List Nat := [0x36, 0x49, 0x3A, 0x3B]

/-- Candidate address list of `qtpy_pullups.py` (line 74). -/
def addressesPullups : List Nat := [0x36, 0x49, 0x3A, 0x3B, 0x60]

/-- A concrete fake bus driver on which only address 0x3A opens. -/
def fakeOpen (a : Nat) : RRead Unit :=
  if a = 0x3A then RRead.ok () else RRead.fault Fault.deviceAbsent

/-- Initial channel array of `qtpy_working.py` with all four channels
set up: `last_positions = [0, 0, 0, 0]`, `last_buttons = [False, False,
False, False]` (line 30). -/
def workingInit : List Chan := List.replicate 4 ⟨true, true, 0, false⟩

/-- Initial channel array of `qtpy_fixed_from_sample.py`:
`last_positions = [0, 0, 0, 0]`, `last_buttons = [True, True, True,
True]` (line 44). -/
def sampleInit : List PChan := List.replicate 4 ⟨0, true⟩

/-- One cycle of bus reads from an untouched board: every encoder still
at raw position 0 and every pull-up button at its resting level true. -/
def restReads : List ChanRe := List.replicate 4 ⟨RRead.ok 0, RRead.ok true⟩

end Ether

namespace Ether

theorem rawEncStep_fst (last p : Int) : (rawEncStep last p).1 = p := by
  rw [rawEncStep]
  split
  · rfl
  · next h => simp only [ne_eq, not_not] at h; exact h.symm

theorem rawEncStep_sum (last p : Int) : (rawEncStep last p).2.sum = p - last := by
  rw [rawEncStep]
  split
  · simp
  · next h => simp only [ne_eq, not_not] at h; simp [h]

theorem rawEncRun_final (last : Int) (ps : List Int) :
    (rawEncRun last ps).1 = ps.getLastD last := by
  induction ps generalizing last with
  | nil => rfl
  | cons p ps ih =>
      rw [rawEncRun, List.getLastD_cons]
      show (rawEncRun (rawEncStep last p).1 ps).1 = ps.getLastD p
      rw [rawEncStep_fst]
      exact ih p

theorem rawEncRun_sum (last : Int) (ps : List Int) :
    (rawEncRun last ps).2.sum = (rawEncRun last ps).1 - last := by
  induction ps generalizing last with
  | nil => simp [rawEncRun]
  | cons p ps ih =>
      rw [rawEncRun]
      simp only [List.sum_append]
      rw [rawEncStep_sum, rawEncStep_fst, ih p]
      omega

/-- Claim C5 (confirmed): under the raw delta policy of
`qtpy_quad_rotary_script.py`, for every nonempty fault-free sequence of
raw position reads, the emitted deltas sum exactly to the final raw
position minus the initial `last_positions[i]`. -/
theorem rawPolicy_telescopes (last : Int) (ps : List Int) (h : ps ≠ []) :
    (rawEncRun last ps).2.sum = ps.getLast h - last := by
  rw [rawEncRun_sum, rawEncRun_final, List.getLastD_eq_getLast?,
    List.getLast?_eq_getLast ps h, Option.getD_some]

/-- Witness for `rawPolicy_telescopes` at the read sequence `[3, 7]`
from initial last position 0. -/
theorem rawPolicy_telescopes_w :
    (rawEncRun 0 [3, 7]).2.sum = 7 - 0 := by
  have h : ([3, 7] : List Int) ≠ [] := by decide
  have h2 := rawPolicy_telescopes 0 [3, 7] h
  simpa using h2

/-- Claim C6 (confirmed): under the sign-normalized policy of
`qtpy_normalized_steps.py`, the emitting branch fires exactly when the
current position differs from the last one and then emits +1 when the
raw delta is positive and -1 otherwise, so every emitted encoder delta
over any fault-free run is exactly +1 or exactly -1, never 0 nor any
other magnitude. -/
theorem signNormalized_unit (i : Nat) :
    (∀ last pos : Int, pos ≠ last →
      normEncStep i last pos =
        (pos, [Event.enc i (if 0 < pos - last then 1 else -1)])) ∧
    (∀ last pos : Int, pos = last → normEncStep i last pos = (last, [])) ∧
    (∀ (last : Int) (ps : List Int) (e : Event),
      e ∈ (normEncRun i last ps).2 →
        e = Event.enc i 1 ∨ e = Event.enc i (-1)) := by
  refine ⟨?_, ?_, ?_⟩
  · intro last pos h
    simp [normEncStep, h]
  · intro last pos h
    simp [normEncStep, h]
  · intro last ps
    induction ps generalizing last with
    | nil => intro e he; simp [normEncRun] at he
    | cons p ps ih =>
        intro e he
        rw [normEncRun] at he
        simp only [List.mem_append] at he
        rcases he with he | he
        · rw [normEncStep] at he
          split at he
          · simp only [List.mem_singleton] at he
            subst he
            split
            · left; rfl
            · right; rfl
          · simp at he
        · exact ih _ e he

/-- Witness for `signNormalized_unit`: a change from 0 to 5 emits +1,
and a change from 0 to -3 leads to an emitted delta in {+1, -1}. -/
theorem signNormalized_unit_w :
    normEncStep 1 0 5 = (5, [Event.enc 1 (if (0 : Int) < 5 - 0 then 1 else -1)]) ∧
    (Event.enc 1 (-1) = Event.enc 1 1 ∨ Event.enc 1 (-1) = Event.enc 1 (-1)) :=
  ⟨(signNormalized_unit 1).1 0 5 (by decide),
   (signNormalized_unit 1).2.2 0 [-3] (Event.enc 1 (-1)) (by decide)⟩

/-- Claim C7 (confirmed): the button step emits exactly one PRESS on a
true-to-false level change, exactly one RELEASE on a false-to-true
change, and nothing when the level is unchanged; from
`last_buttons[i] = True` the level sequence
`[true, true, false, false, true]` emits PRESS once then RELEASE once,
in that order, with no duplicates. -/
theorem buttonEdges (i : Nat) :
    btnPart i true false = (false, [Event.press i]) ∧
    btnPart i false true = (true, [Event.release i]) ∧
    (∀ b : Bool, btnPart i b b = (b, [])) ∧
    btnRun 1 true [true, true, false, false, true] =
      (true, [Event.press 1, Event.release 1]) := by
  refine ⟨by simp [btnPart], by simp [btnPart], ?_, by decide⟩
  intro b
  simp [btnPart]

/-- Claim C4 (confirmed): the address probe loop attempts candidates
strictly in list order, continues past faulting candidates, and selects
the first that opens: for candidates `[A, B, C]` with A and B faulting
and C succeeding, the attempt sequence is `[A, B, C]` and C is
selected. -/
theorem probeOrder (openS : Nat → RRead Unit) (A B C : Nat) (fa fb : Fault)
    (hA : openS A = RRead.fault fa) (hB : openS B = RRead.fault fb)
    (hC : openS C = RRead.ok ()) :
    probeAddrs openS [A, B, C] = ([A, B, C], some C) := by
  simp [probeAddrs, hA, hB, hC]

/-- Witness for `probeOrder` on the fake driver where only 0x3A opens,
over the first three candidates of `qtpy_fixed_pins.py`. -/
theorem probeOrder_w :
    probeAddrs fakeOpen [0x36, 0x49, 0x3A] = ([0x36, 0x49, 0x3A], some 0x3A) :=
  probeOrder fakeOpen 0x36 0x49 0x3A Fault.deviceAbsent Fault.deviceAbsent
    (by decide) (by decide) (by decide)

theorem fdiv_add_mul_right (r k d : Int) (hd : 0 < d) :
    Int.fdiv (r + k * d) d = Int.fdiv r d + k := by
  rw [Int.fdiv_eq_ediv _ (le_of_lt hd), Int.fdiv_eq_ediv _ (le_of_lt hd),
    Int.add_mul_ediv_right _ _ (ne_of_gt hd)]

theorem clampSign (k : Int) (hk : k ≠ 0) :
    (if k > 1 then (1 : Int) else if k < -1 then -1 else k) =
      if 0 < k then 1 else -1 := by
  split_ifs <;> omega

/-- Claim C2 (confirmed): under the divisor-scaled policy of
`qtpy_grid_sequencer.py` with divisor `d > 0`, the raw position is
floor-divided by `d` before differencing, a raw jump of `k * d` ticks
in one cycle changes the divided position by `k` and yields exactly one
event of exactly +1 or -1, and `last_positions[i]` is updated to the
divided position; in particular the raw sequence `[0, 0, 4, 4, 8]` with
divisor 4 emits `E1:+1` exactly twice and leaves the last position at
2. -/
theorem divisorScaled (d last r k : Int) (i : Nat) (hd : 0 < d)
    (hr : Int.fdiv r d = last) (hk : k ≠ 0) :
    gridEncStepD d i last (r + k * d) =
      (last + k, [Event.enc i (if 0 < k then 1 else -1)]) ∧
    gridEncRun 1 0 [0, 0, 4, 4, 8] = (2, [Event.enc 1 1, Event.enc 1 1]) := by
  refine ⟨?_, by decide⟩
  rw [gridEncStepD]
  simp only [fdiv_add_mul_right r k d hd, hr]
  have h1 : last + k ≠ last := by omega
  rw [if_pos h1, add_sub_cancel_left, clampSign k hk]

/-- Witness for `divisorScaled`: with divisor 4, from raw position 2
(divided position 0), a jump of one detent (4 raw ticks) emits a single
+1 event. -/
theorem divisorScaled_w :
    gridEncStepD 4 1 0 (2 + 1 * 4) =
      (0 + 1, [Event.enc 1 (if (0 : Int) < 1 then 1 else -1)]) ∧
    gridEncRun 1 0 [0, 0, 4, 4, 8] = (2, [Event.enc 1 1, Event.enc 1 1]) :=
  divisorScaled 4 0 2 1 1 (by decide) (by decide) (by decide)

/-- Claim C10 (confirmed): `qtpy_grid_sequencer.py` computes the
divided position by Python floor division (`Int.fdiv`) with its divisor
constant 4, so step boundaries are asymmetric around zero: from raw 0
and divided last position 0, one raw tick to -1 moves the divided
position to -1 and emits -1, while raw +1, +2 and +3 keep the divided
position at 0 and emit nothing. -/
theorem floorDivAsym :
    ENCODER_DIVISOR = 4 ∧
    Int.fdiv (-1) 4 = -1 ∧
    gridEncStep 1 0 (-1) = (-1, [Event.enc 1 (-1)]) ∧
    gridEncStep 1 0 1 = (0, []) ∧
    gridEncStep 1 0 2 = (0, []) ∧
    gridEncStep 1 0 3 = (0, []) := by
  refine ⟨rfl, by decide, by decide, by decide, by decide, by decide⟩

/-- Claim C9 (confirmed): with `last_buttons` initialized to all-false
while an untouched pull-up button reads true, the very first cycle of
`qtpy_working.py` emits one spurious RELEASE per working button; the
`qtpy_fixed_from_sample.py` variant, whose `last_buttons` start all
true, emits nothing on the same first cycle. -/
theorem spuriousFirstRelease :
    workingCycle 1 workingInit restReads =
      (List.replicate 4 ⟨true, true, 0, true⟩,
        [Event.release 1, Event.release 2, Event.release 3, Event.release 4]) ∧
    sampleCycle 1 sampleInit restReads = (sampleInit, []) := by
  constructor
  · decide
  · decide

/-- Claim C1 (corrected) counterexample: in `qtpy_simple.py`, a
device-absent fault on the encoder read of channel 1 also sets
`buttons[0] = None`, so on the next cycle a pressed button emits no
event, contradicting that only the encoder is disabled and the button
keeps emitting as before. -/
theorem encBtnCoupled_cex :
    ((simpleChanStep 1 ⟨true, true, 0, true⟩
        ⟨RRead.fault Fault.deviceAbsent, RRead.ok true⟩).1).btn = false ∧
    simpleChanStep 1
        ((simpleChanStep 1 ⟨true, true, 0, true⟩
          ⟨RRead.fault Fault.deviceAbsent, RRead.ok true⟩).1)
        ⟨RRead.ok 0, RRead.ok false⟩ =
      (⟨false, false, 0, true⟩, []) := by
  constructor
  · decide
  · decide

/-- Claim C1 (corrected, amended): a device-absent fault on the
encoder read of a channel disables the encoder AND button of that channel together, not
the encoder alone; in `qtpy_simple.py` a channel whose encoder handle
is absent but whose button handle is present does continue to have its
button read and emitting every cycle, while in `qtpy_working.py` such a
channel is skipped entirely, so its button is not polled. -/
theorem encBtnCoupled (i : Nat) :
    (∀ (p : Int) (b : Bool) (br : RRead Bool),
      simpleChanStep i ⟨true, true, p, b⟩ ⟨RRead.fault Fault.deviceAbsent, br⟩ =
        (⟨false, false, p, b⟩, [])) ∧
    (∀ (p : Int) (b cur : Bool) (er : RRead Int),
      simpleChanStep i ⟨false, true, p, b⟩ ⟨er, RRead.ok cur⟩ =
        (⟨false, true, p, (btnPart i b cur).1⟩, (btnPart i b cur).2)) ∧
    (∀ (c : Chan) (re : ChanRe), c.enc = false →
      workingChanStep i c re = (c, [])) := by
  refine ⟨?_, ?_, ?_⟩
  · intro p b br
    simp [simpleChanStep]
  · intro p b cur er
    simp [simpleChanStep, simpleBtnHalf]
  · intro c re h
    simp [workingChanStep, h]

/-- Witness for `encBtnCoupled`: in `qtpy_working.py` a channel with an
absent encoder but present button is skipped, so its pressed button
emits nothing. -/
theorem encBtnCoupled_w :
    workingChanStep 1 ⟨false, true, 0, true⟩ ⟨RRead.ok 0, RRead.ok false⟩ =
      (⟨false, true, 0, true⟩, []) :=
  (encBtnCoupled 1).2.2 ⟨false, true, 0, true⟩ ⟨RRead.ok 0, RRead.ok false⟩ rfl

/-- Claim C3 (corrected) counterexample: in `qtpy_fixed_pins.py` a
transient (non-device-absent) fault on a channel read disables the
handles of the channel, contradicting that a transient fault is only logged
with the channel remaining active. -/
theorem faultTaxonomy_cex :
    fixedPinsChanStep 1 ⟨true, true, 0, false⟩
        ⟨RRead.fault Fault.transient, RRead.ok false⟩ =
      (⟨false, false, 0, false⟩, []) := by
  decide

/-- Claim C3 (corrected, amended): in `qtpy_working.py` (and the
variants sharing its handler) a device-absent fault triggers a one-way
disable of the handles of the channel, a disabled channel is skipped
unchanged on every later cycle (never re-enabled), and a transient
fault is only logged with the channel state unchanged so the read is
retried unconditionally next cycle; in `qtpy_fixed_pins.py`, however,
ANY fault — transient included — disables the channel. -/
theorem faultTaxonomy (i : Nat) :
    (∀ (c : Chan) (br : RRead Bool), c.enc = true →
      workingChanStep i c ⟨RRead.fault Fault.deviceAbsent, br⟩ =
        ({ c with enc := false, btn := false }, [])) ∧
    (∀ (c : Chan) (br : RRead Bool), c.enc = true →
      workingChanStep i c ⟨RRead.fault Fault.transient, br⟩ = (c, [])) ∧
    (∀ (c : Chan) (res : List ChanRe), c.enc = false →
      runChan workingChanStep i c res = (c, [])) ∧
    (∀ (c : Chan) (f : Fault) (br : RRead Bool), c.enc = true →
      fixedPinsChanStep i c ⟨RRead.fault f, br⟩ =
        ({ c with enc := false, btn := false }, [])) := by
  refine ⟨?_, ?_, ?_, ?_⟩
  · intro c br h
    simp [workingChanStep, h]
  · intro c br h
    simp [workingChanStep, h]
  · intro c res h
    induction res with
    | nil => rfl
    | cons re res ih =>
        rw [runChan]
        have hs : workingChanStep i c re = (c, []) := by
          simp [workingChanStep, h]
        rw [hs]
        simp only [ih, List.nil_append]
  · intro c f br h
    simp [fixedPinsChanStep, h]

/-- Witness for `faultTaxonomy`: a transient fault in `qtpy_working.py`
leaves the channel unchanged and still enabled. -/
theorem faultTaxonomy_w :
    workingChanStep 1 ⟨true, true, 0, false⟩
        ⟨RRead.fault Fault.transient, RRead.ok false⟩ =
      (⟨true, true, 0, false⟩, []) :=
  (faultTaxonomy 1).2.1 ⟨true, true, 0, false⟩ (RRead.ok false) rfl

/-- Claim C8 (corrected) counterexample: `qtpy_quad_rotary_script.py`
has no exception handler, so a transient fault on the channel-1 encoder
read escapes the polling loop: the cycle reports the escaped fault,
channel 2 is left unpolled with no events, even though polling channel
2 that cycle would have emitted `B2:PRESS`. -/
theorem faultContained_cex :
    quadCycle 1 [⟨0, true⟩, ⟨0, true⟩]
        [⟨RRead.fault Fault.transient, RRead.ok true⟩,
         ⟨RRead.ok 0, RRead.ok false⟩] =
      ([⟨0, true⟩, ⟨0, true⟩], [], some Fault.transient) ∧
    quadChanStep 2 ⟨0, true⟩ ⟨RRead.ok 0, RRead.ok false⟩ =
      (⟨0, false⟩, [Event.press 2], none) := by
  constructor
  · decide
  · decide

/-- Claim C8 (corrected, amended): in `qtpy_working.py` every bus-read
fault is caught inside the per-channel try/except and converted into
either a disable decision or a log line with nothing emitted, and the
remaining channels of the cycle are polled exactly as they would be
without the fault; in `qtpy_quad_rotary_script.py`, which has no
handler, a read fault escapes the loop and the remaining channels are
not polled that cycle. -/
theorem faultContained (i : Nat) :
    (∀ (c : Chan) (cs : List Chan) (f : Fault) (br : RRead Bool)
        (res : List ChanRe),
      workingCycle i (c :: cs) (⟨RRead.fault f, br⟩ :: res) =
        ((workingChanStep i c ⟨RRead.fault f, br⟩).1 ::
            (workingCycle (i + 1) cs res).1,
          (workingCycle (i + 1) cs res).2) ∧
      (workingChanStep i c ⟨RRead.fault f, br⟩).2 = [] ∧
      ((workingChanStep i c ⟨RRead.fault f, br⟩).1 = c ∨
        (workingChanStep i c ⟨RRead.fault f, br⟩).1 =
          { c with enc := false, btn := false })) ∧
    (∀ (c : PChan) (cs : List PChan) (f : Fault) (br : RRead Bool)
        (res : List ChanRe),
      quadCycle i (c :: cs) (⟨RRead.fault f, br⟩ :: res) =
        (c :: cs, [], some f)) := by
  constructor
  · intro c cs f br res
    have hev : (workingChanStep i c ⟨RRead.fault f, br⟩).2 = [] := by
      rw [workingChanStep]
      split
      · rfl
      · split
        · split <;> rfl
        · next heq => simp at heq
    refine ⟨?_, hev, ?_⟩
    · simp only [workingCycle, hev, List.nil_append]
    · rw [workingChanStep]
      split
      · left; rfl
      · split
        · split
          · right; rfl
          · left; rfl
        · next heq => simp at heq
  · intro c cs f br res
    rfl

end Ether
